import Mathlib

/-!
Verification of the reaction network generation core (HiPRGen:
`reaction_filter.py`, `reaction_gen.py`, `HiPRGen/rxn_networks_graph.py`)
against its natural-language specification.

Numeric model: the Python floats are modelled exactly — free energies,
temperatures and thresholds as rationals, rates as real numbers (the rate
formula involves `exp`).
-/

/-- Type `Terminal` from `reaction_gen.py` / `reaction_questions`: the leaves of a
decision tree. -/
inductive Terminal where
  | KEEP
  | DISCARD
deriving DecidableEq, Repr

/-- A decision tree node is either a `Terminal` or a list of
`(question, node)` pairs (`reaction_gen.py` docstring). The question type `Q`
is abstract; concrete trees instantiate it. -/
inductive DTree (Q : Type) where
  | terminal : Terminal → DTree Q
  | node : List (Q × DTree Q) → DTree Q

/-- A molecule entry: the fields of `mol_entry.MoleculeEntry` that this core
reads (free energy, atom count, entry id, bond graph edge list). -/
structure Mol where
  free_energy : ℚ
  num_atoms : ℕ
  entry_id : ℕ
  graph : List (ℕ × ℕ)
deriving DecidableEq, Inhabited, Repr

/-- The `params` dict passed to questions. -/
structure Params where
  temperature : ℚ
  electron_free_energy : ℚ
deriving DecidableEq, Repr

/-- The mutable reaction dict. Keys that questions may add later
(`dG`, `rate`, `is_redox`, `atom_map`) are modelled as `Option` fields,
`none` meaning the key is absent. The cyclic `reverse` back-reference of the
Python dicts is modelled by the value-level pairing in `enumerate_bucket`. -/
structure Reaction where
  reactants : ℤ × ℤ
  products : ℤ × ℤ
  number_of_reactants : ℕ
  number_of_products : ℕ
  dG : Option ℚ := none
  rate : Option ℝ := none
  is_redox : Option Bool := none
  atom_map : Option (List ((ℕ × ℕ) × (ℕ × ℕ))) := none
deriving Inhabited

/-- A question is evaluated on a reaction and may mutate it: `qe q r mols p`
returns the boolean answer together with the updated reaction record. -/
abbrev QEval (Q : Type) := Q → Reaction → List Mol → Params → Bool × Reaction

/-- Entries of the `decision_pathway` trace: the questions that answered
true, and finally the terminal reached. -/
abbrev TraceItem (Q : Type) := Q ⊕ Terminal

/-- The `for (question, new_node) in node` loop inside `run_decision_tree`
(`reaction_filter.py` lines 34-47): call the questions in list order,
threading the mutated reaction, and stop at the first one that answers true,
returning the chosen `(question, child)` entry (`none` if every question
answered false, i.e. `next_node` stays `None`). -/
def scan_questions {Q : Type} (qe : QEval Q) (mol_entries : List Mol)
    (params : Params) : Reaction → List (Q × DTree Q) →
    Reaction × Option (Q × DTree Q)
  | r, [] => (r, none)
  | r, (q, child) :: rest =>
    match qe q r mol_entries params with
    | (true, r') => (r', some (q, child))
    | (false, r') => scan_questions qe mol_entries params r' rest

theorem scan_questions_mem {Q : Type} (qe : QEval Q) (mol_entries : List Mol)
    (params : Params) : ∀ (r r' : Reaction) (l : List (Q × DTree Q))
    (qc : Q × DTree Q),
    scan_questions qe mol_entries params r l = (r', some qc) → qc ∈ l := by
  intro r r' l
  induction l generalizing r with
  | nil =>
    intro qc h
    simp [scan_questions] at h
  | cons hd tl ih =>
    intro qc h
    obtain ⟨q, child⟩ := hd
    rw [scan_questions] at h
    rcases hqe : qe q r mol_entries params with ⟨b, r2⟩
    rw [hqe] at h
    cases b with
    | true =>
      simp at h
      simp [h]
    | false =>
      simp at h
      exact List.mem_cons_of_mem _ (ih r2 qc h)

theorem scan_questions_sizeOf {Q : Type} (qe : QEval Q)
    (mol_entries : List Mol) (params : Params) (r r' : Reaction)
    (l : List (Q × DTree Q)) (qc : Q × DTree Q)
    (h : scan_questions qe mol_entries params r l = (r', some qc)) :
    sizeOf qc.2 < sizeOf (DTree.node l) := by
  have hmem := scan_questions_mem qe mol_entries params r r' l qc h
  have h1 : sizeOf qc < sizeOf l := List.sizeOf_lt_of_mem hmem
  obtain ⟨q, child⟩ := qc
  simp only [DTree.node.sizeOf_spec]
  simp only [Prod.mk.sizeOf_spec] at h1
  omega

/-- Function `run_decision_tree` from `reaction_filter.py` (lines 25-64): the while
loop walks the tree from the root; at each list node the questions are
scanned in order and the first true one selects the child (appending that
question to `decision_pathway` when one is supplied); at a terminal the
terminal is appended to the trace and `KEEP` maps to `true`, `DISCARD` to
`false`.  When every question of a list node answers false, `next_node`
stays `None`, the while loop exits with `node = None`, and the function
prints that value and raises: modelled by `Except.error` carrying the
printed value (always `none` on this path). -/
def run_decision_tree {Q : Type} (qe : QEval Q) (mol_entries : List Mol)
    (params : Params) (reaction : Reaction) (decision_tree : DTree Q)
    (decision_pathway : Option (List (TraceItem Q))) :
    Except (Option (DTree Q)) (Bool × Reaction × Option (List (TraceItem Q))) :=
  match decision_tree with
  | DTree.terminal t =>
    let tr := decision_pathway.map (fun l => l ++ [Sum.inr t])
    if t = Terminal.KEEP then Except.ok (true, reaction, tr)
    else Except.ok (false, reaction, tr)
  | DTree.node entries =>
    match hscan : scan_questions qe mol_entries params reaction entries with
    | (_, none) => Except.error none
    | (r', some qc) =>
      run_decision_tree qe mol_entries params r' qc.2
        (decision_pathway.map (fun l => l ++ [Sum.inl qc.1]))
termination_by sizeOf decision_tree
decreasing_by
  exact scan_questions_sizeOf qe mol_entries params reaction _ entries _ hscan

/-- Function `run_decision_tree` from `reaction_gen.py` (lines 71-91): identical loop
but with no `decision_pathway` parameter. -/
def run_decision_tree_gen {Q : Type} (qe : QEval Q) (mol_entries : List Mol)
    (params : Params) (reaction : Reaction) (decision_tree : DTree Q) :
    Except (Option (DTree Q)) (Bool × Reaction) :=
  match decision_tree with
  | DTree.terminal t =>
    if t = Terminal.KEEP then Except.ok (true, reaction)
    else Except.ok (false, reaction)
  | DTree.node entries =>
    match hscan : scan_questions qe mol_entries params reaction entries with
    | (_, none) => Except.error none
    | (r', some qc) => run_decision_tree_gen qe mol_entries params r' qc.2
termination_by sizeOf decision_tree
decreasing_by
  exact scan_questions_sizeOf qe mol_entries params reaction _ entries _ hscan

/-- Specification-side evaluator, written from the spec's words (§4.1):
"starting at the root, while the current node is a list, scan predicates in
list order; the first predicate returning true selects its child; if `trace`
is provided, append that predicate.  On reaching a terminal, optionally
append it to `trace` and return `KEEP==true`, `DISCARD==false`." -/
def eval_tree_spec {Q : Type} (qe : QEval Q) (mol_entries : List Mol)
    (params : Params) : DTree Q → Reaction → Option (List (TraceItem Q)) →
    Except (Option (DTree Q)) (Bool × Reaction × Option (List (TraceItem Q)))
  | DTree.terminal t, reaction, tr =>
    Except.ok (decide (t = Terminal.KEEP), reaction,
      tr.map (fun l => l ++ [Sum.inr t]))
  | DTree.node [], _, _ => Except.error none
  | DTree.node ((q, child) :: rest), reaction, tr =>
    match qe q reaction mol_entries params with
    | (true, r') =>
      eval_tree_spec qe mol_entries params child r'
        (tr.map (fun l => l ++ [Sum.inl q]))
    | (false, r') => eval_tree_spec qe mol_entries params (DTree.node rest) r' tr
termination_by t _ _ => sizeOf t
decreasing_by
  · simp only [DTree.node.sizeOf_spec, List.cons.sizeOf_spec,
      Prod.mk.sizeOf_spec]
    omega
  · simp only [DTree.node.sizeOf_spec, List.cons.sizeOf_spec,
      Prod.mk.sizeOf_spec]
    omega

theorem eval_tree_spec_node_eq_scan {Q : Type} (qe : QEval Q)
    (mol_entries : List Mol) (params : Params) (l : List (Q × DTree Q)) :
    ∀ (r : Reaction) (tr : Option (List (TraceItem Q))),
    eval_tree_spec qe mol_entries params (DTree.node l) r tr =
      (match scan_questions qe mol_entries params r l with
       | (_, none) => Except.error none
       | (r', some qc) =>
         eval_tree_spec qe mol_entries params qc.2 r'
           (tr.map (fun x => x ++ [Sum.inl qc.1]))) := by
  induction l with
  | nil =>
    intro r tr
    simp [eval_tree_spec, scan_questions]
  | cons hd tl ih =>
    intro r tr
    obtain ⟨q, child⟩ := hd
    rw [eval_tree_spec]
    rcases hqe : qe q r mol_entries params with ⟨b, r'⟩
    cases b with
    | true =>
      simp [scan_questions, hqe]
    | false =>
      simp only [scan_questions, hqe]
      exact ih r' tr

theorem run_decision_tree_eq_spec {Q : Type} (qe : QEval Q)
    (mol_entries : List Mol) (params : Params) :
    ∀ (t : DTree Q) (r : Reaction) (tr : Option (List (TraceItem Q))),
    run_decision_tree qe mol_entries params r t tr =
      eval_tree_spec qe mol_entries params t r tr := by
  have H : ∀ (n : ℕ) (t : DTree Q), sizeOf t = n →
      ∀ (r : Reaction) (tr : Option (List (TraceItem Q))),
      run_decision_tree qe mol_entries params r t tr =
        eval_tree_spec qe mol_entries params t r tr := by
    intro n
    induction n using Nat.strong_induction_on with
    | _ n ih =>
      intro t ht r tr
      cases t with
      | terminal trm =>
        rw [run_decision_tree, eval_tree_spec]
        cases trm with
        | KEEP => simp
        | DISCARD => simp
      | node l =>
        rw [run_decision_tree, eval_tree_spec_node_eq_scan]
        rcases hscan : scan_questions qe mol_entries params r l with ⟨r', oqc⟩
        cases oqc with
        | none => simp
        | some qc =>
          simp only
          have hlt : sizeOf qc.2 < n := by
            rw [← ht]
            exact scan_questions_sizeOf qe mol_entries params r r' l qc hscan
          exact ih (sizeOf qc.2) hlt qc.2 rfl r'
            (tr.map (fun x => x ++ [Sum.inl qc.1]))
  exact fun t r tr => H (sizeOf t) t rfl r tr

theorem run_decision_tree_gen_eq {Q : Type} (qe : QEval Q)
    (mol_entries : List Mol) (params : Params) :
    ∀ (t : DTree Q) (r : Reaction),
    run_decision_tree_gen qe mol_entries params r t =
      (run_decision_tree qe mol_entries params r t none).map
        (fun x => (x.1, x.2.1)) := by
  have H : ∀ (n : ℕ) (t : DTree Q), sizeOf t = n → ∀ (r : Reaction),
      run_decision_tree_gen qe mol_entries params r t =
        (run_decision_tree qe mol_entries params r t none).map
          (fun x => (x.1, x.2.1)) := by
    intro n
    induction n using Nat.strong_induction_on with
    | _ n ih =>
      intro t ht r
      cases t with
      | terminal trm =>
        rw [run_decision_tree, run_decision_tree_gen]
        cases trm with
        | KEEP => simp [Except.map]
        | DISCARD => simp [Except.map]
      | node l =>
        rw [run_decision_tree, run_decision_tree_gen]
        rcases hscan : scan_questions qe mol_entries params r l with ⟨r', oqc⟩
        cases oqc with
        | none => simp [Except.map]
        | some qc =>
          simp only
          have hlt : sizeOf qc.2 < n := by
            rw [← ht]
            exact scan_questions_sizeOf qe mol_entries params r r' l qc hscan
          exact ih (sizeOf qc.2) hlt qc.2 rfl r'
  exact fun t r => H (sizeOf t) t rfl r

/-- C1: For every decision tree and reaction record, the evaluator starts at
the root and, while the current node is a list, scans its
(predicate, child) entries in list order, moving to the child of the first
predicate that returns true (appending that predicate to the trace when a
trace list is supplied); on reaching a terminal it appends the terminal to
the trace when supplied and returns true exactly when the terminal is KEEP
and false exactly when it is DISCARD.  Formalised: the loop-structured
translation of `run_decision_tree` (both the `reaction_filter.py` and the
`reaction_gen.py` versions) agrees with `eval_tree_spec`, the structural
evaluator written from the spec's words, for every tree, reaction, and
optional trace; and at terminals the result is exactly
`KEEP ↦ true / DISCARD ↦ false` with the terminal appended to the trace. -/
theorem C1_run_decision_tree_follows_spec {Q : Type} (qe : QEval Q)
    (mol_entries : List Mol) (params : Params) (t : DTree Q) (r : Reaction)
    (tr : List (TraceItem Q)) :
    (run_decision_tree qe mol_entries params r t (some tr) =
       eval_tree_spec qe mol_entries params t r (some tr)) ∧
    (run_decision_tree qe mol_entries params r t none =
       eval_tree_spec qe mol_entries params t r none) ∧
    (run_decision_tree_gen qe mol_entries params r t =
       (run_decision_tree qe mol_entries params r t none).map
         (fun x => (x.1, x.2.1))) ∧
    (run_decision_tree qe mol_entries params r (DTree.terminal Terminal.KEEP)
       (some tr) = Except.ok (true, r, some (tr ++ [Sum.inr Terminal.KEEP]))) ∧
    (run_decision_tree qe mol_entries params r
       (DTree.terminal Terminal.DISCARD) (some tr) =
       Except.ok (false, r, some (tr ++ [Sum.inr Terminal.DISCARD]))) := by
  refine ⟨run_decision_tree_eq_spec qe mol_entries params t r (some tr),
    run_decision_tree_eq_spec qe mol_entries params t r none,
    run_decision_tree_gen_eq qe mol_entries params t r, ?_, ?_⟩
  · rw [run_decision_tree]
    simp
  · rw [run_decision_tree]
    simp

/-- Modelled from the spec: `constants.py` is imported by both source files
but is not under `src/`.  `KB` is the Boltzmann constant in eV/K, feeding
`kT` in the rate formula (spec §4.2, §6). -/
def KB : ℚ := 8.617e-5

/-- Modelled from the spec: `constants.py` is not under `src/`.  `PLANCK` is
the Planck constant in eV·s, the `h` of `r_max = kT / h` (spec §4.2). -/
def PLANCK : ℚ := 4.1357e-15

/-- Modelled from the spec: `constants.py` is not under `src/`.  Room
temperature in kelvin, the default `temperature` (spec §6). -/
def ROOM_TEMP : ℚ := 298.15

/-- Function `default_rate` from `reaction_gen.py` (lines 93-102): with
`kT = KB * temperature` and `max_rate = kT / PLANCK`, the rate is `max_rate`
when `dG < 0` and `max_rate * exp(-dG / kT)` otherwise.  The float
arithmetic is modelled exactly over the rationals, with the transcendental
`exp` over the reals. -/
noncomputable def default_rate (dG : ℚ) (params : Params) : ℝ :=
  let kT : ℚ := KB * params.temperature
  let max_rate : ℚ := kT / PLANCK
  if dG < 0 then (max_rate : ℝ)
  else (max_rate : ℝ) * Real.exp (((-dG / kT : ℚ) : ℝ))

/-- Python list indexing `mol_entries[index]` for an integer index: a
non-negative index counts from the front, a negative one from the back. -/
def mol_entry_at (mol_entries : List Mol) (index : ℤ) : Mol :=
  if 0 ≤ index then mol_entries.getD index.toNat default
  else mol_entries.getD (mol_entries.length - (-index).toNat) default

/-- The `dG` accumulation inside `dG_above_threshold` (`reaction_gen.py`
lines 105-113): start from `0.0`, subtract the free energy of every
non-sentinel reactant index, then add the free energy of every non-sentinel
product index. -/
def dG_of_reaction (reaction : Reaction) (mol_entries : List Mol) : ℚ :=
  let dG0 : ℚ := 0
  let dG1 := [reaction.reactants.1, reaction.reactants.2].foldl
    (fun a index =>
      if index ≠ -1 then a - (mol_entry_at mol_entries index).free_energy
      else a) dG0
  [reaction.products.1, reaction.products.2].foldl
    (fun a index =>
      if index ≠ -1 then a + (mol_entry_at mol_entries index).free_energy
      else a) dG1

/-- Function `dG_above_threshold` from `reaction_gen.py` (lines 104-120): if the
computed `dG` exceeds the threshold answer `True`, else store `dG` and
`default_rate(dG, params)` into the reaction and answer `False`. -/
noncomputable def dG_above_threshold (threshold : ℚ) (reaction : Reaction)
    (mol_entries : List Mol) (params : Params) : Bool × Reaction :=
  let dG := dG_of_reaction reaction mol_entries
  if dG > threshold then (true, reaction)
  else (false,
    { reaction with
      dG := some dG
      rate := some (default_rate dG params) })

/-- Specification-side free-energy sum of one side of a reaction: the sum of
the free energies of the non-sentinel species indices of that slot (spec
§4.2: "sentinels contribute zero"). -/
def side_free_energy_sum (mol_entries : List Mol) (side : ℤ × ℤ) : ℚ :=
  (([side.1, side.2].filter (fun i => i ≠ -1)).map
    (fun i => (mol_entry_at mol_entries i).free_energy)).sum

theorem dG_of_reaction_eq_sum (reaction : Reaction) (mol_entries : List Mol) :
    dG_of_reaction reaction mol_entries =
      side_free_energy_sum mol_entries reaction.products -
        side_free_energy_sum mol_entries reaction.reactants := by
  unfold dG_of_reaction side_free_energy_sum
  by_cases h1 : reaction.reactants.1 = -1 <;>
    by_cases h2 : reaction.reactants.2 = -1 <;>
    by_cases h3 : reaction.products.1 = -1 <;>
    by_cases h4 : reaction.products.2 = -1 <;>
    simp [h1, h2, h3, h4] <;> ring

/-- C2: For every reaction record, species store and params,
`dG_above_threshold(T)` computes `dG` as the sum of the products' free
energies minus the sum of the reactants' free energies, with sentinel index
`-1` contributing zero on either side; it returns true if and only if
`dG > T` (`dG` exactly equal to `T` returns false), and when it returns
false it first stores `dG` into `reaction.dG` and `default_rate dG params`
into `reaction.rate`. -/
theorem C2_dG_above_threshold_correct (threshold : ℚ) (reaction : Reaction)
    (mol_entries : List Mol) (params : Params) :
    dG_of_reaction reaction mol_entries =
      side_free_energy_sum mol_entries reaction.products -
        side_free_energy_sum mol_entries reaction.reactants ∧
    dG_above_threshold threshold reaction mol_entries params =
      (if side_free_energy_sum mol_entries reaction.products -
            side_free_energy_sum mol_entries reaction.reactants > threshold
       then (true, reaction)
       else (false,
         { reaction with
           dG := some (side_free_energy_sum mol_entries reaction.products -
             side_free_energy_sum mol_entries reaction.reactants)
           rate := some (default_rate
             (side_free_energy_sum mol_entries reaction.products -
               side_free_energy_sum mol_entries reaction.reactants) params) })) ∧
    ((dG_above_threshold threshold reaction mol_entries params).1 = true ↔
      side_free_energy_sum mol_entries reaction.products -
        side_free_energy_sum mol_entries reaction.reactants > threshold) := by
  have hdG := dG_of_reaction_eq_sum reaction mol_entries
  refine ⟨hdG, ?_, ?_⟩
  · unfold dG_above_threshold
    rw [hdG]
  · unfold dG_above_threshold
    rw [hdG]
    by_cases h : side_free_energy_sum mol_entries reaction.products -
        side_free_energy_sum mol_entries reaction.reactants > threshold <;>
      simp [h]

/-- C4: For every `dG` and every `params` with positive temperature, with
`kT = KB * temperature` and `r_max = kT / PLANCK`, `default_rate dG params`
is `r_max` when `dG < 0` and `r_max * exp (-dG / kT)` otherwise; it lies in
`[0, r_max]`, reaching `r_max` exactly when `dG ≤ 0`. -/
theorem C4_default_rate_bounds (dG : ℚ) (params : Params)
    (h : 0 < params.temperature) :
    (dG < 0 → default_rate dG params =
      ((KB * params.temperature / PLANCK : ℚ) : ℝ)) ∧
    (¬ dG < 0 → default_rate dG params =
      ((KB * params.temperature / PLANCK : ℚ) : ℝ) *
        Real.exp (-(dG : ℝ) / ((KB * params.temperature : ℚ) : ℝ))) ∧
    0 ≤ default_rate dG params ∧
    default_rate dG params ≤ ((KB * params.temperature / PLANCK : ℚ) : ℝ) ∧
    (default_rate dG params = ((KB * params.temperature / PLANCK : ℚ) : ℝ) ↔
      dG ≤ 0) := by
  have hKB : (0 : ℚ) < KB := by norm_num [KB]
  have hPL : (0 : ℚ) < PLANCK := by norm_num [PLANCK]
  have hkT : (0 : ℚ) < KB * params.temperature := mul_pos hKB h
  have hmr : (0 : ℚ) < KB * params.temperature / PLANCK := div_pos hkT hPL
  have hmrR : (0 : ℝ) < ((KB * params.temperature / PLANCK : ℚ) : ℝ) := by
    exact_mod_cast hmr
  have hexp_arg : ((-dG / (KB * params.temperature) : ℚ) : ℝ) =
      -(dG : ℝ) / ((KB * params.temperature : ℚ) : ℝ) := by
    push_cast
    ring
  have hrate_neg : dG < 0 → default_rate dG params =
      ((KB * params.temperature / PLANCK : ℚ) : ℝ) := by
    intro hdg
    unfold default_rate
    rw [if_pos hdg]
  have hrate_nonneg : ¬ dG < 0 → default_rate dG params =
      ((KB * params.temperature / PLANCK : ℚ) : ℝ) *
        Real.exp (-(dG : ℝ) / ((KB * params.temperature : ℚ) : ℝ)) := by
    intro hdg
    unfold default_rate
    rw [if_neg hdg, hexp_arg]
  refine ⟨hrate_neg, hrate_nonneg, ?_, ?_, ?_⟩
  · by_cases hneg : dG < 0
    · rw [hrate_neg hneg]
      exact le_of_lt hmrR
    · rw [hrate_nonneg hneg]
      positivity
  · by_cases hneg : dG < 0
    · rw [hrate_neg hneg]
    · rw [hrate_nonneg hneg]
      have harg_le : -(dG : ℝ) / ((KB * params.temperature : ℚ) : ℝ) ≤ 0 := by
        apply div_nonpos_of_nonpos_of_nonneg
        · simp
          exact_mod_cast not_lt.mp hneg
        · exact_mod_cast le_of_lt hkT
      calc ((KB * params.temperature / PLANCK : ℚ) : ℝ) *
            Real.exp (-(dG : ℝ) / ((KB * params.temperature : ℚ) : ℝ))
          ≤ ((KB * params.temperature / PLANCK : ℚ) : ℝ) * 1 := by
            apply mul_le_mul_of_nonneg_left _ (le_of_lt hmrR)
            exact Real.exp_le_one_iff.mpr harg_le
        _ = ((KB * params.temperature / PLANCK : ℚ) : ℝ) := mul_one _
  · constructor
    · intro heq
      by_contra hpos
      have hdGpos : (0 : ℚ) < dG := lt_of_not_le hpos
      have hneg : ¬ dG < 0 := not_lt.mpr (le_of_lt hdGpos)
      have harg_lt : -(dG : ℝ) / ((KB * params.temperature : ℚ) : ℝ) < 0 := by
        apply div_neg_of_neg_of_pos
        · simp
          exact_mod_cast hdGpos
        · exact_mod_cast hkT
      have hexp_lt : Real.exp (-(dG : ℝ) /
          ((KB * params.temperature : ℚ) : ℝ)) < 1 :=
        Real.exp_lt_one_iff.mpr harg_lt
      have hlt : ((KB * params.temperature / PLANCK : ℚ) : ℝ) *
          Real.exp (-(dG : ℝ) / ((KB * params.temperature : ℚ) : ℝ)) <
          ((KB * params.temperature / PLANCK : ℚ) : ℝ) := by
        calc ((KB * params.temperature / PLANCK : ℚ) : ℝ) *
              Real.exp (-(dG : ℝ) / ((KB * params.temperature : ℚ) : ℝ))
            < ((KB * params.temperature / PLANCK : ℚ) : ℝ) * 1 :=
              mul_lt_mul_of_pos_left hexp_lt hmrR
          _ = ((KB * params.temperature / PLANCK : ℚ) : ℝ) := mul_one _
      rw [hrate_nonneg hneg] at heq
      exact absurd heq (ne_of_lt hlt)
    · intro hle
      by_cases hneg : dG < 0
      · exact hrate_neg hneg
      · have hdG0 : dG = 0 := le_antisymm hle (not_lt.mp hneg)
        rw [hrate_nonneg hneg, hdG0]
        simp

theorem C4_default_rate_bounds_witness :
    0 < (Params.mk ROOM_TEMP (-1.4)).temperature ∧
    0 ≤ default_rate 1 (Params.mk ROOM_TEMP (-1.4)) ∧
    default_rate 1 (Params.mk ROOM_TEMP (-1.4)) ≤
      ((KB * (Params.mk ROOM_TEMP (-1.4)).temperature / PLANCK : ℚ) : ℝ) :=
  ⟨by norm_num [ROOM_TEMP],
   (C4_default_rate_bounds 1 (Params.mk ROOM_TEMP (-1.4))
     (by norm_num [ROOM_TEMP])).2.2.1,
   (C4_default_rate_bounds 1 (Params.mk ROOM_TEMP (-1.4))
     (by norm_num [ROOM_TEMP])).2.2.2.1⟩

/-- The questions appearing in `standard_decision_tree` of `reaction_gen.py`
(lines 125-128): `partial(dG_above_threshold, 0.5)` and `default_true`. -/
inductive StdQ where
  | dG_above (threshold : ℚ)
  | default_true
deriving DecidableEq, Repr

/-- Evaluation of the standard questions: `dG_above` calls
`dG_above_threshold` with its bound threshold; `default_true`
(`reaction_gen.py` lines 122-123) always answers true and leaves the
reaction untouched. -/
noncomputable def std_qeval : QEval StdQ
  | StdQ.dG_above t, r, mol_entries, params =>
    dG_above_threshold t r mol_entries params
  | StdQ.default_true, r, _, _ => (true, r)

/-- Tree `standard_decision_tree` from `reaction_gen.py` (lines 125-128). -/
def standard_decision_tree : DTree StdQ :=
  DTree.node [(StdQ.dG_above 0.5, DTree.terminal Terminal.DISCARD),
              (StdQ.default_true, DTree.terminal Terminal.KEEP)]

/-- The reverse reaction dict built by the worker (`reaction_filter.py`
lines 281-287): reactants and products swapped, the two counts swapped, no
other keys. -/
def reverse_reaction (reaction : Reaction) : Reaction :=
  { reactants := reaction.products
    products := reaction.reactants
    number_of_reactants := reaction.number_of_products
    number_of_products := reaction.number_of_reactants }

theorem dG_of_reverse_reaction (r : Reaction) (mol_entries : List Mol) :
    dG_of_reaction (reverse_reaction r) mol_entries =
      - dG_of_reaction r mol_entries := by
  rw [dG_of_reaction_eq_sum, dG_of_reaction_eq_sum]
  simp only [reverse_reaction]
  ring

theorem run_standard_tree (mol_entries : List Mol) (params : Params)
    (r : Reaction) (tr : List (TraceItem StdQ)) :
    run_decision_tree std_qeval mol_entries params r standard_decision_tree
      (some tr) =
      (if dG_of_reaction r mol_entries > 0.5 then
        Except.ok (false, r, some (tr ++ [Sum.inl (StdQ.dG_above 0.5),
          Sum.inr Terminal.DISCARD]))
      else
        Except.ok (true,
          { r with
            dG := some (dG_of_reaction r mol_entries)
            rate := some (default_rate (dG_of_reaction r mol_entries) params) },
          some (tr ++ [Sum.inl StdQ.default_true, Sum.inr Terminal.KEEP]))) := by
  rw [run_decision_tree_eq_spec]
  unfold standard_decision_tree
  rw [eval_tree_spec_node_eq_scan]
  by_cases h : dG_of_reaction r mol_entries > 0.5
  · have hscan : scan_questions std_qeval mol_entries params r
        [(StdQ.dG_above 0.5, DTree.terminal Terminal.DISCARD),
         (StdQ.default_true, DTree.terminal Terminal.KEEP)] =
        (r, some (StdQ.dG_above 0.5, DTree.terminal Terminal.DISCARD)) := by
      rw [scan_questions]
      simp [std_qeval, dG_above_threshold, h]
    rw [hscan]
    simp only [eval_tree_spec]
    rw [if_pos h]
    simp
  · have h1 : dG_above_threshold 0.5 r mol_entries params =
        (false,
         { r with
           dG := some (dG_of_reaction r mol_entries)
           rate := some (default_rate (dG_of_reaction r mol_entries)
             params) }) := by
      unfold dG_above_threshold
      rw [if_neg h]
    have hscan : scan_questions std_qeval mol_entries params r
        [(StdQ.dG_above 0.5, DTree.terminal Terminal.DISCARD),
         (StdQ.default_true, DTree.terminal Terminal.KEEP)] =
        ({ r with
           dG := some (dG_of_reaction r mol_entries)
           rate := some (default_rate (dG_of_reaction r mol_entries) params) },
         some (StdQ.default_true, DTree.terminal Terminal.KEEP)) := by
      rw [scan_questions]
      simp only [std_qeval, h1]
      rw [scan_questions]
      simp [std_qeval]
    rw [hscan]
    simp only [eval_tree_spec]
    rw [if_neg h]
    simp

/-- C5: For every reaction that evaluates to KEEP under the standard
decision tree, the record obtained by swapping its reactants and products
(the reverse reaction) either evaluates to KEEP with its stored `dG` equal
to the negation of the forward `dG`, or evaluates to DISCARD; it never
yields a `dG` of different magnitude. -/
theorem C5_reverse_reaction_dG (mol_entries : List Mol) (params : Params)
    (r r1 : Reaction) (tr1 : Option (List (TraceItem StdQ)))
    (hkeep : run_decision_tree std_qeval mol_entries params r
      standard_decision_tree (some []) = Except.ok (true, r1, tr1)) :
    ∃ dGf : ℚ, r1.dG = some dGf ∧
      ((∃ r2 tr2, run_decision_tree std_qeval mol_entries params
          (reverse_reaction r) standard_decision_tree (some []) =
            Except.ok (true, r2, tr2) ∧ r2.dG = some (-dGf)) ∨
       (∃ r2 tr2, run_decision_tree std_qeval mol_entries params
          (reverse_reaction r) standard_decision_tree (some []) =
            Except.ok (false, r2, tr2))) := by
  rw [run_standard_tree] at hkeep
  by_cases h : dG_of_reaction r mol_entries > 0.5
  · rw [if_pos h] at hkeep
    simp at hkeep
  · rw [if_neg h] at hkeep
    have hr1 : r1 = { r with
        dG := some (dG_of_reaction r mol_entries)
        rate := some (default_rate (dG_of_reaction r mol_entries) params) } := by
      have := congrArg (fun x => match x with
        | Except.ok (_, y, _) => y
        | Except.error _ => r1) hkeep
      simpa using this.symm
    refine ⟨dG_of_reaction r mol_entries, by rw [hr1], ?_⟩
    by_cases h2 : dG_of_reaction (reverse_reaction r) mol_entries > 0.5
    · right
      refine ⟨reverse_reaction r,
        some ([] ++ [Sum.inl (StdQ.dG_above 0.5), Sum.inr Terminal.DISCARD]),
        ?_⟩
      rw [run_standard_tree, if_pos h2]
    · left
      refine ⟨{ reverse_reaction r with
          dG := some (dG_of_reaction (reverse_reaction r) mol_entries)
          rate := some (default_rate
            (dG_of_reaction (reverse_reaction r) mol_entries) params) },
        some ([] ++ [Sum.inl StdQ.default_true, Sum.inr Terminal.KEEP]),
        ?_, ?_⟩
      · rw [run_standard_tree, if_neg h2]
      · simp only [dG_of_reverse_reaction]

theorem run_decision_tree_all_false {Q : Type} (qe : QEval Q)
    (mol_entries : List Mol) (params : Params) (r r' : Reaction)
    (entries : List (Q × DTree Q)) (tr : Option (List (TraceItem Q)))
    (hall : scan_questions qe mol_entries params r entries = (r', none)) :
    run_decision_tree qe mol_entries params r (DTree.node entries) tr =
      Except.error none := by
  rw [run_decision_tree]
  split
  · rfl
  next r2 qc heq =>
    rw [hall] at heq
    simp at heq

/-- C3 (amended): For every reaction reaching an internal (list) node of a
decision tree on which all predicates return false, the evaluator raises a
fatal error and never silently treats the reaction as discarded (it does not
return false, nor any other normal result).  Amended from the original
claim: the raised error does not name the offending node — the code prints
the loop variable, which is `None` at that point, and raises a generic
message, so the error value is `none`. -/
theorem C3_exhausted_node_raises {Q : Type} (qe : QEval Q)
    (mol_entries : List Mol) (params : Params) (r r' : Reaction)
    (entries : List (Q × DTree Q)) (tr : Option (List (TraceItem Q)))
    (hall : scan_questions qe mol_entries params r entries = (r', none)) :
    run_decision_tree qe mol_entries params r (DTree.node entries) tr =
      Except.error none ∧
    ∀ out, run_decision_tree qe mol_entries params r (DTree.node entries) tr ≠
      Except.ok out := by
  have h := run_decision_tree_all_false qe mol_entries params r r' entries tr
    hall
  refine ⟨h, fun out hok => ?_⟩
  rw [h] at hok
  exact Except.noConfusion hok

/-- A question that always answers false without touching the reaction. -/
def all_false_qeval : QEval Unit := fun _ r _ _ => (false, r)

/-- A sample reaction record `A -> A` over a one-molecule species store. -/
def sample_reaction : Reaction :=
  Reaction.mk (0, -1) (0, -1) 1 1 none none none none

/-- A sample one-molecule species store. -/
def sample_mols : List Mol := [Mol.mk 0 1 0 []]

/-- The default params of the dispatcher. -/
def sample_params : Params := Params.mk ROOM_TEMP (-1.4)

theorem C3_exhausted_node_raises_witness :
    scan_questions all_false_qeval [] sample_params sample_reaction
      [((), DTree.terminal Terminal.KEEP)] = (sample_reaction, none) ∧
    (run_decision_tree all_false_qeval [] sample_params sample_reaction
      (DTree.node [((), DTree.terminal Terminal.KEEP)]) none =
        Except.error none ∧
     ∀ out, run_decision_tree all_false_qeval [] sample_params sample_reaction
       (DTree.node [((), DTree.terminal Terminal.KEEP)]) none ≠
         Except.ok out) :=
  ⟨rfl, C3_exhausted_node_raises all_false_qeval [] sample_params
    sample_reaction sample_reaction [((), DTree.terminal Terminal.KEEP)] none
    rfl⟩

/-- C3 counterexample to the claim as stated: on a concrete internal node
whose only predicate answers false, the evaluator's fatal error carries
`none` (the code does `print(node)` with `node = None` and raises a generic
message), not the offending node, for any candidate node value.  So the
error does not "name the offending node". -/
theorem C3_counterexample_error_names_no_node :
    run_decision_tree all_false_qeval [] sample_params sample_reaction
      (DTree.node [((), DTree.terminal Terminal.KEEP)]) none =
      Except.error none ∧
    ∀ t : DTree Unit,
      run_decision_tree all_false_qeval [] sample_params sample_reaction
        (DTree.node [((), DTree.terminal Terminal.KEEP)]) none ≠
        Except.error (some t) := by
  have h := run_decision_tree_all_false all_false_qeval [] sample_params
    sample_reaction sample_reaction [((), DTree.terminal Terminal.KEEP)] none
    rfl
  refine ⟨h, fun t hok => ?_⟩
  rw [h] at hok
  simp at hok

theorem C5_reverse_reaction_dG_witness :
    (run_decision_tree std_qeval sample_mols sample_params sample_reaction
      standard_decision_tree (some []) =
      Except.ok (true,
        Reaction.mk (0, -1) (0, -1) 1 1 (some 0)
          (some (default_rate 0 sample_params)) none none,
        some [Sum.inl StdQ.default_true, Sum.inr Terminal.KEEP])) ∧
    (∃ dGf : ℚ,
      (Reaction.mk (0, -1) (0, -1) 1 1 (some 0)
        (some (default_rate 0 sample_params)) none none).dG = some dGf ∧
      ((∃ r2 tr2, run_decision_tree std_qeval sample_mols sample_params
          (reverse_reaction sample_reaction) standard_decision_tree
          (some []) = Except.ok (true, r2, tr2) ∧ r2.dG = some (-dGf)) ∨
       (∃ r2 tr2, run_decision_tree std_qeval sample_mols sample_params
          (reverse_reaction sample_reaction) standard_decision_tree
          (some []) = Except.ok (false, r2, tr2)))) := by
  have hdG : dG_of_reaction sample_reaction sample_mols = 0 := by
    norm_num [dG_of_reaction, sample_reaction, sample_mols, mol_entry_at]
  have hrun : run_decision_tree std_qeval sample_mols sample_params
      sample_reaction standard_decision_tree (some []) =
      Except.ok (true,
        Reaction.mk (0, -1) (0, -1) 1 1 (some 0)
          (some (default_rate 0 sample_params)) none none,
        some [Sum.inl StdQ.default_true, Sum.inr Terminal.KEEP]) := by
    rw [run_standard_tree, hdG, if_neg (by norm_num)]
    rfl
  exact ⟨hrun, C5_reverse_reaction_dG sample_mols sample_params
    sample_reaction _ _ hrun⟩

/-- Function `itertools.combinations(bucket, 2)` as used by the worker
(`reaction_filter.py` line 273): all pairs of distinct elements, first
component appearing earlier in the list, in lexicographic order of
positions. -/
def combinations2 {α : Type} : List α → List (α × α)
  | [] => []
  | x :: xs => xs.map (fun y => (x, y)) ++ combinations2 xs

/-- Specification-side enumeration: the pairs `(l[i], l[j])` for `i < j`,
listed in lexicographic order of `(i, j)` ("all unordered 2-combinations
... ordered by the bucket's natural row order", spec §4.3). -/
def combinations2_by_index {α : Type} [Inhabited α] (l : List α) :
    List (α × α) :=
  (List.range l.length).flatMap
    (fun i => (l.drop (i + 1)).map (fun b => (l.getD i default, b)))

theorem combinations2_eq_by_index {α : Type} [Inhabited α] (l : List α) :
    combinations2 l = combinations2_by_index l := by
  induction l with
  | nil => rfl
  | cons x xs ih =>
    have h1 : combinations2_by_index (x :: xs) =
        xs.map (fun b => (x, b)) ++ combinations2_by_index xs := by
      unfold combinations2_by_index
      rw [List.length_cons, List.range_succ_eq_map]
      simp only [List.flatMap_cons, List.flatMap_map]
      congr 1
    rw [combinations2, ih, h1]

theorem combinations2_length {α : Type} (l : List α) :
    (combinations2 l).length = l.length.choose 2 := by
  induction l with
  | nil => rfl
  | cons x xs ih =>
    rw [combinations2]
    simp only [List.length_append, List.length_map, List.length_cons, ih,
      Nat.choose_succ_succ, Nat.choose_one_right]

theorem combinations2_mem_iff {α : Type} (l : List α) (a b : α) :
    (a, b) ∈ combinations2 l ↔
      ∃ i j : ℕ, i < j ∧ l[i]? = some a ∧ l[j]? = some b := by
  induction l with
  | nil => simp [combinations2]
  | cons x xs ih =>
    rw [combinations2]
    simp only [List.mem_append, List.mem_map, ih]
    constructor
    · rintro (⟨y, hy, heq⟩ | ⟨i, j, hij, ha, hb⟩)
      · obtain ⟨k, hk⟩ := List.mem_iff_getElem?.mp hy
        obtain ⟨ha, hb⟩ := Prod.mk.injEq .. ▸ heq
        refine ⟨0, k + 1, Nat.succ_pos k, ?_, ?_⟩
        · rw [List.getElem?_cons_zero, ha]
        · rw [List.getElem?_cons_succ, ← hb]
          exact hk
      · exact ⟨i + 1, j + 1, Nat.succ_lt_succ hij,
          by rw [List.getElem?_cons_succ]; exact ha,
          by rw [List.getElem?_cons_succ]; exact hb⟩
    · rintro ⟨i, j, hij, ha, hb⟩
      cases i with
      | zero =>
        left
        obtain ⟨jj, rfl⟩ : ∃ jj, j = jj + 1 := ⟨j - 1, by omega⟩
        rw [List.getElem?_cons_zero] at ha
        rw [List.getElem?_cons_succ] at hb
        refine ⟨b, List.mem_iff_getElem?.mpr ⟨jj, hb⟩, ?_⟩
        have : x = a := by injection ha
        rw [this]
      | succ ii =>
        right
        obtain ⟨jj, rfl⟩ : ∃ jj, j = jj + 1 := ⟨j - 1, by omega⟩
        rw [List.getElem?_cons_succ] at ha hb
        exact ⟨ii, jj, by omega, ha, hb⟩

/-- The count of non-sentinel entries of a slot:
`len([i for i in slot if i != -1])` (`reaction_filter.py` lines 277-278). -/
def count_non_sentinel (slot : ℤ × ℤ) : ℕ :=
  ([slot.1, slot.2].filter (fun i => i ≠ -1)).length

/-- The forward reaction dict built by the worker for a combination
(`reaction_filter.py` lines 274-278). -/
def mk_reaction (reactants products : ℤ × ℤ) : Reaction :=
  { reactants := reactants
    products := products
    number_of_reactants := count_non_sentinel reactants
    number_of_products := count_non_sentinel products }

/-- The enumeration performed by the worker for one bucket
(`reaction_filter.py` lines 273-297): for every 2-combination of rows, the
forward reaction paired with its reverse.  The mutual `reverse` dict
back-references are modelled by the pairing itself. -/
def enumerate_bucket (bucket : List (ℤ × ℤ)) : List (Reaction × Reaction) :=
  (combinations2 bucket).map
    (fun rp => (mk_reaction rp.1 rp.2, reverse_reaction (mk_reaction rp.1 rp.2)))

/-- C6: For every bucket of `n` pair slots, the worker enumerates exactly
the `n*(n-1)/2` unordered 2-combinations of rows in the bucket's row order
(so a one-row bucket produces zero reactions), and for each combination
builds a forward reaction with reactants = first row and products = second
row, and a reverse reaction with reactants and products swapped; each
record's counts equal the number of non-sentinel entries of the
corresponding slot, and forward and reverse are linked to each other (each
is the swap of the other). -/
theorem C6_enumerate_bucket_correct (bucket : List (ℤ × ℤ)) :
    (enumerate_bucket bucket).length =
      bucket.length * (bucket.length - 1) / 2 ∧
    enumerate_bucket bucket = (combinations2_by_index bucket).map
      (fun rp =>
        (mk_reaction rp.1 rp.2, reverse_reaction (mk_reaction rp.1 rp.2))) ∧
    (∀ a b : ℤ × ℤ, (a, b) ∈ combinations2 bucket ↔
      ∃ i j : ℕ, i < j ∧ bucket[i]? = some a ∧ bucket[j]? = some b) ∧
    (∀ fr ∈ enumerate_bucket bucket,
      fr.1.reactants ∈ bucket ∧ fr.1.products ∈ bucket ∧
      fr.2 = reverse_reaction fr.1 ∧ fr.1 = reverse_reaction fr.2 ∧
      fr.1.number_of_reactants = count_non_sentinel fr.1.reactants ∧
      fr.1.number_of_products = count_non_sentinel fr.1.products ∧
      fr.2.reactants = fr.1.products ∧ fr.2.products = fr.1.reactants ∧
      fr.2.number_of_reactants = count_non_sentinel fr.2.reactants ∧
      fr.2.number_of_products = count_non_sentinel fr.2.products) ∧
    (∀ row : ℤ × ℤ, enumerate_bucket [row] = []) := by
  refine ⟨?_, ?_, ?_, ?_, ?_⟩
  · unfold enumerate_bucket
    rw [List.length_map, combinations2_length, Nat.choose_two_right]
  · unfold enumerate_bucket
    rw [combinations2_eq_by_index]
  · exact combinations2_mem_iff bucket
  · intro fr hfr
    unfold enumerate_bucket at hfr
    obtain ⟨⟨ra, pb⟩, hmem, rfl⟩ := List.mem_map.mp hfr
    have hrow := combinations2_mem_iff bucket ra pb |>.mp hmem
    obtain ⟨i, j, hij, ha, hb⟩ := hrow
    refine ⟨?_, ?_, rfl, rfl, rfl, rfl, rfl, rfl, ?_, ?_⟩
    · exact List.mem_iff_getElem?.mpr ⟨i, ha⟩
    · exact List.mem_iff_getElem?.mpr ⟨j, hb⟩
    · rfl
    · rfl
  · intro row
    rfl

/-- One row of the `reactions` table as the dispatcher inserts it
(`reaction_filter.py` lines 192-205): the bound `reaction_index` followed by
the reaction's fields in the column order of `insert_reaction`. -/
structure InsertedRow where
  reaction_id : ℕ
  number_of_reactants : ℕ
  number_of_products : ℕ
  reactant_1 : ℤ
  reactant_2 : ℤ
  product_1 : ℤ
  product_2 : ℤ
  rate : Option ℝ
  dG : Option ℚ

/-- The tuple bound by `rn_cur.execute(insert_reaction, ...)`
(`reaction_filter.py` lines 194-205). -/
def insert_reaction_row (reaction_index : ℕ) (reaction : Reaction) :
    InsertedRow :=
  { reaction_id := reaction_index
    number_of_reactants := reaction.number_of_reactants
    number_of_products := reaction.number_of_products
    reactant_1 := reaction.reactants.1
    reactant_2 := reaction.reactants.2
    product_1 := reaction.products.1
    product_2 := reaction.products.2
    rate := reaction.rate
    dG := reaction.dG }

/-- The reaction-handling part of the dispatcher's inner loop
(`reaction_filter.py` lines 184-217), abstracted over the dequeue order:
each dequeued reaction is inserted bound to the current `reaction_index`,
which is then incremented by exactly one.  Returns the inserted rows and the
final value of `reaction_index`.  The interleaved logging-queue handling
(lines 219-224) touches neither `reaction_index` nor the reactions table. -/
def collate_loop (reaction_index : ℕ) :
    List Reaction → List InsertedRow × ℕ
  | [] => ([], reaction_index)
  | r :: rest =>
    let step := collate_loop (reaction_index + 1) rest
    (insert_reaction_row reaction_index r :: step.1, step.2)

/-- The single `metadata` row (`reaction_filter.py` lines 71-79, 226-233). -/
structure MetadataRow where
  number_of_species : ℕ
  number_of_reactions : ℕ
  factor_zero : ℚ
  factor_two : ℚ
  factor_duplicate : ℚ
deriving DecidableEq

/-- The dispatcher's whole collation (`reaction_filter.py` lines 178-233),
abstracted over the sequence of reactions dequeued from `reaction_queue`:
run the insert loop starting from `reaction_index = 0`, then after the loop
exits insert exactly one metadata row
`(len(mol_entries)+1, reaction_index+1, factor_zero, factor_two,
factor_duplicate)`. -/
def dispatcher_collate (mol_entries : List Mol) (dequeued : List Reaction)
    (factor_zero factor_two factor_duplicate : ℚ) :
    List InsertedRow × MetadataRow :=
  let step := collate_loop 0 dequeued
  (step.1,
   { number_of_species := mol_entries.length + 1
     number_of_reactions := step.2 + 1
     factor_zero := factor_zero
     factor_two := factor_two
     factor_duplicate := factor_duplicate })

theorem collate_loop_final_index (reaction_index : ℕ) (rs : List Reaction) :
    (collate_loop reaction_index rs).2 = reaction_index + rs.length := by
  induction rs generalizing reaction_index with
  | nil => simp [collate_loop]
  | cons r rest ih =>
    rw [collate_loop]
    simp only [ih]
    simp [List.length_cons]
    omega

theorem collate_loop_ids (reaction_index : ℕ) (rs : List Reaction) :
    (collate_loop reaction_index rs).1.map InsertedRow.reaction_id =
      (List.range rs.length).map (fun k => reaction_index + k) := by
  induction rs generalizing reaction_index with
  | nil => simp [collate_loop]
  | cons r rest ih =>
    rw [collate_loop]
    simp only [List.map_cons, ih, List.length_cons,
      List.range_succ_eq_map, List.map_map]
    congr 1
    apply List.map_congr_left
    intro a _
    simp only [Function.comp_apply]
    omega

/-- C7: After its main loop exits, the collator inserts exactly one metadata
row whose fields are `len(mol_entries)+1`, `reaction_index+1`,
`factor_zero`, `factor_two` and `factor_duplicate`, in that order; in
particular, when no reaction was ever dequeued the metadata row records
`number_of_reactions = 1`. -/
theorem C7_metadata_row (mol_entries : List Mol) (dequeued : List Reaction)
    (f0 f2 fd : ℚ) :
    (dispatcher_collate mol_entries dequeued f0 f2 fd).2 =
      MetadataRow.mk (mol_entries.length + 1)
        ((collate_loop 0 dequeued).2 + 1) f0 f2 fd ∧
    (collate_loop 0 dequeued).2 = dequeued.length ∧
    (dispatcher_collate mol_entries [] f0 f2 fd).2.number_of_reactions = 1 := by
  refine ⟨rfl, ?_, rfl⟩
  rw [collate_loop_final_index]
  omega

/-- C8: For every sequence of reactions dequeued by the collator, the
`reaction_id` values it assigns are dense and start at 0 (the k-th dequeued
reaction receives id k-1), hence strictly increasing in insertion order: the
collator binds the current `reaction_index` to each inserted row and
increments it by exactly one per insert. -/
theorem collate_loop_chain (reaction_index : ℕ) (rs : List Reaction) :
    List.Chain' (fun x y => y.reaction_id = x.reaction_id + 1)
      (collate_loop reaction_index rs).1 := by
  induction rs generalizing reaction_index with
  | nil => simp [collate_loop]
  | cons r rest ih =>
    rw [collate_loop]
    rw [List.chain'_cons']
    refine ⟨?_, ih (reaction_index + 1)⟩
    intro y hy
    cases rest with
    | nil => simp [collate_loop] at hy
    | cons r2 rest2 =>
      rw [collate_loop] at hy
      simp only [List.head?_cons, Option.mem_def, Option.some.injEq] at hy
      rw [← hy]
      simp [insert_reaction_row]

theorem C8_reaction_ids_dense (dequeued : List Reaction) :
    (collate_loop 0 dequeued).1.map InsertedRow.reaction_id =
      List.range dequeued.length ∧
    List.Chain' (fun x y => y.reaction_id = x.reaction_id + 1)
      (collate_loop 0 dequeued).1 ∧
    (collate_loop 0 dequeued).2 = dequeued.length := by
  refine ⟨?_, collate_loop_chain 0 dequeued, ?_⟩
  · rw [collate_loop_ids]
    simp
  · rw [collate_loop_final_index]
    omega


theorem run_standard_tree_none (mol_entries : List Mol) (params : Params)
    (r : Reaction) :
    run_decision_tree std_qeval mol_entries params r standard_decision_tree
      none =
      (if dG_of_reaction r mol_entries > 0.5 then Except.ok (false, r, none)
      else
        Except.ok (true,
          { r with
            dG := some (dG_of_reaction r mol_entries)
            rate := some (default_rate (dG_of_reaction r mol_entries) params) },
          none)) := by
  rw [run_decision_tree_eq_spec]
  unfold standard_decision_tree
  rw [eval_tree_spec_node_eq_scan]
  by_cases h : dG_of_reaction r mol_entries > 0.5
  · have hscan : scan_questions std_qeval mol_entries params r
        [(StdQ.dG_above 0.5, DTree.terminal Terminal.DISCARD),
         (StdQ.default_true, DTree.terminal Terminal.KEEP)] =
        (r, some (StdQ.dG_above 0.5, DTree.terminal Terminal.DISCARD)) := by
      rw [scan_questions]
      simp [std_qeval, dG_above_threshold, h]
    rw [hscan]
    simp only [eval_tree_spec]
    rw [if_pos h]
    simp
  · have h1 : dG_above_threshold 0.5 r mol_entries params =
        (false,
         { r with
           dG := some (dG_of_reaction r mol_entries)
           rate := some (default_rate (dG_of_reaction r mol_entries)
             params) }) := by
      unfold dG_above_threshold
      rw [if_neg h]
    have hscan : scan_questions std_qeval mol_entries params r
        [(StdQ.dG_above 0.5, DTree.terminal Terminal.DISCARD),
         (StdQ.default_true, DTree.terminal Terminal.KEEP)] =
        ({ r with
           dG := some (dG_of_reaction r mol_entries)
           rate := some (default_rate (dG_of_reaction r mol_entries) params) },
         some (StdQ.default_true, DTree.terminal Terminal.KEEP)) := by
      rw [scan_questions]
      simp only [std_qeval, h1]
      rw [scan_questions]
      simp [std_qeval]
    rw [hscan]
    simp only [eval_tree_spec]
    rw [if_neg h]
    simp

/-- The per-pair body of the worker loop `reaction_filter`
(`reaction_filter.py` lines 273-329): build the forward reaction and its
reverse, evaluate the filter tree on each with a fresh trace list
(`decision_pathway_forward` / `decision_pathway_reverse`), enqueue the kept
records on the reaction queue, then evaluate the logging tree on each
(without any trace) and enqueue `(record, filter-trace)` pairs on the
logging queue.  The reaction records are threaded through the runs in
program order, as the Python dicts are mutated in place. -/
def process_pair {Q : Type} (qe : QEval Q) (mol_entries : List Mol)
    (params : Params) (decision_tree logging_decision_tree : DTree Q)
    (reactants products : ℤ × ℤ) :
    Except (Option (DTree Q))
      (List Reaction × List (Reaction × List (TraceItem Q))) :=
  let reaction := mk_reaction reactants products
  let reverse := reverse_reaction reaction
  match run_decision_tree qe mol_entries params reaction decision_tree
      (some []) with
  | Except.error e => Except.error e
  | Except.ok (bf, rf1, trf) =>
    match run_decision_tree qe mol_entries params reverse decision_tree
        (some []) with
    | Except.error e => Except.error e
    | Except.ok (br, rr1, trr) =>
      match run_decision_tree qe mol_entries params rf1
          logging_decision_tree none with
      | Except.error e => Except.error e
      | Except.ok (lf, rf2, _) =>
        match run_decision_tree qe mol_entries params rr1
            logging_decision_tree none with
        | Except.error e => Except.error e
        | Except.ok (lr, rr2, _) =>
          Except.ok
            ((if bf then [rf1] else []) ++ (if br then [rr1] else []),
             (if lf then [(rf2, trf.getD [])] else []) ++
               (if lr then [(rr2, trr.getD [])] else []))

/-- C10: For every reaction whose logging-tree evaluation keeps it, the pair
enqueued on the logging queue is `(record, decision_pathway)` where
`decision_pathway` is the trace recorded while evaluating the filter tree on
that reaction, and the logging-tree evaluation itself runs without a trace
(so the emitted audit trace always reflects the filter tree's decisions). -/
theorem C10_logging_uses_filter_trace {Q : Type} (qe : QEval Q)
    (mol_entries : List Mol) (params : Params)
    (decision_tree logging_decision_tree : DTree Q)
    (reactants products : ℤ × ℤ) (bf br lf lr : Bool)
    (rf1 rr1 rf2 rr2 : Reaction) (trf trr : List (TraceItem Q))
    (hf : run_decision_tree qe mol_entries params
      (mk_reaction reactants products) decision_tree (some []) =
      Except.ok (bf, rf1, some trf))
    (hr : run_decision_tree qe mol_entries params
      (reverse_reaction (mk_reaction reactants products)) decision_tree
      (some []) = Except.ok (br, rr1, some trr))
    (hlf : run_decision_tree qe mol_entries params rf1
      logging_decision_tree none = Except.ok (lf, rf2, none))
    (hlr : run_decision_tree qe mol_entries params rr1
      logging_decision_tree none = Except.ok (lr, rr2, none)) :
    process_pair qe mol_entries params decision_tree logging_decision_tree
      reactants products =
      Except.ok
        ((if bf then [rf1] else []) ++ (if br then [rr1] else []),
         (if lf then [(rf2, trf)] else []) ++
           (if lr then [(rr2, trr)] else [])) := by
  unfold process_pair
  dsimp only
  rw [hf]
  dsimp only
  rw [hr]
  dsimp only
  rw [hlf]
  dsimp only
  rw [hlr]
  rfl

theorem C10_logging_uses_filter_trace_witness :
    (run_decision_tree std_qeval sample_mols sample_params
      (mk_reaction (0, -1) (0, -1)) standard_decision_tree (some []) =
      Except.ok (true,
        Reaction.mk (0, -1) (0, -1) 1 1 (some 0)
          (some (default_rate 0 sample_params)) none none,
        some [Sum.inl StdQ.default_true, Sum.inr Terminal.KEEP])) ∧
    (process_pair std_qeval sample_mols sample_params standard_decision_tree
      standard_decision_tree (0, -1) (0, -1) =
      Except.ok
        ([Reaction.mk (0, -1) (0, -1) 1 1 (some 0)
            (some (default_rate 0 sample_params)) none none,
          Reaction.mk (0, -1) (0, -1) 1 1 (some 0)
            (some (default_rate 0 sample_params)) none none],
         [(Reaction.mk (0, -1) (0, -1) 1 1 (some 0)
             (some (default_rate 0 sample_params)) none none,
           [Sum.inl StdQ.default_true, Sum.inr Terminal.KEEP]),
          (Reaction.mk (0, -1) (0, -1) 1 1 (some 0)
             (some (default_rate 0 sample_params)) none none,
           [Sum.inl StdQ.default_true, Sum.inr Terminal.KEEP])])) := by
  have hdG : dG_of_reaction (mk_reaction (0, -1) (0, -1)) sample_mols = 0 := by
    norm_num [dG_of_reaction, mk_reaction, sample_mols, mol_entry_at]
  have hrev : reverse_reaction (mk_reaction (0, -1) (0, -1)) =
      mk_reaction (0, -1) (0, -1) := rfl
  have hdG1 : dG_of_reaction (Reaction.mk (0, -1) (0, -1) 1 1 (some 0)
      (some (default_rate 0 sample_params)) none none) sample_mols = 0 := by
    norm_num [dG_of_reaction, sample_mols, mol_entry_at]
  have hf : run_decision_tree std_qeval sample_mols sample_params
      (mk_reaction (0, -1) (0, -1)) standard_decision_tree (some []) =
      Except.ok (true,
        Reaction.mk (0, -1) (0, -1) 1 1 (some 0)
          (some (default_rate 0 sample_params)) none none,
        some [Sum.inl StdQ.default_true, Sum.inr Terminal.KEEP]) := by
    rw [run_standard_tree, hdG, if_neg (by norm_num)]
    rfl
  have hlog : run_decision_tree std_qeval sample_mols sample_params
      (Reaction.mk (0, -1) (0, -1) 1 1 (some 0)
        (some (default_rate 0 sample_params)) none none)
      standard_decision_tree none =
      Except.ok (true,
        Reaction.mk (0, -1) (0, -1) 1 1 (some 0)
          (some (default_rate 0 sample_params)) none none, none) := by
    rw [run_standard_tree_none, hdG1, if_neg (by norm_num)]
  refine ⟨hf, ?_⟩
  have h := C10_logging_uses_filter_trace std_qeval sample_mols sample_params
    standard_decision_tree standard_decision_tree (0, -1) (0, -1)
    true true true true
    (Reaction.mk (0, -1) (0, -1) 1 1 (some 0)
      (some (default_rate 0 sample_params)) none none)
    (Reaction.mk (0, -1) (0, -1) 1 1 (some 0)
      (some (default_rate 0 sample_params)) none none)
    (Reaction.mk (0, -1) (0, -1) 1 1 (some 0)
      (some (default_rate 0 sample_params)) none none)
    (Reaction.mk (0, -1) (0, -1) 1 1 (some 0)
      (some (default_rate 0 sample_params)) none none)
    [Sum.inl StdQ.default_true, Sum.inr Terminal.KEEP]
    [Sum.inl StdQ.default_true, Sum.inr Terminal.KEEP]
    hf (by rw [hrev]; exact hf) hlog hlog
  rw [h]
  rfl

/-- The ways the modelled prefix of `create_rxn_networks_graph` can abort:
a Python `IndexError` (list index out of range), `KeyError` (missing dict
key), or a failed `assert`. -/
inductive GraphErr where
  | indexError
  | keyError
  | assertionError
deriving DecidableEq, Repr

/-- A Python dict from local atom index to global atom index, modelled as an
insertion-ordered association list with distinct keys. -/
abbrev AtomDict := List (ℕ × ℕ)

/-- Python dict assignment `d[k] = v`: overwrite in place when the key
exists, append otherwise. -/
def dinsert (d : AtomDict) (k v : ℕ) : AtomDict :=
  if (d.lookup k).isSome then
    d.map (fun kv => if kv.1 = k then (k, v) else kv)
  else d ++ [(k, v)]

/-- Python dict subscript `d[k]`: `KeyError` when the key is absent. -/
def dict_get (d : AtomDict) (k : ℕ) : Except GraphErr ℕ :=
  match d.lookup k with
  | some v => Except.ok v
  | none => Except.error GraphErr.keyError

/-- Python `ds[ind][k] = v` on a list of dicts: `IndexError` when `ind` is
out of range, else update the dict at position `ind`. -/
def set_map_at (ds : List AtomDict) (ind k v : ℕ) :
    Except GraphErr (List AtomDict) :=
  if ind < ds.length then
    Except.ok (ds.set ind (dinsert (ds.getD ind []) k v))
  else Except.error GraphErr.indexError

/-- Python `ds[ind]` on a list of dicts. -/
def dict_at (ds : List AtomDict) (ind : ℕ) : Except GraphErr AtomDict :=
  if ind < ds.length then Except.ok (ds.getD ind [])
  else Except.error GraphErr.indexError

/-- Step 1a of `create_rxn_networks_graph` (`rxn_networks_graph.py` lines
82-85): `reactants = [{} for _ in range(num_reactants)]`, then for each key
`(ind, atom_i)` of the atom map set
`reactants[ind][atom_i] = atom_i + ind * num_reactant0_atoms`. -/
def transform_reactants (num_reactants num_reactant0_atoms : ℕ)
    (atom_map : List ((ℕ × ℕ) × (ℕ × ℕ))) : Except GraphErr (List AtomDict) :=
  atom_map.foldlM
    (fun ds key =>
      set_map_at ds key.1.1 key.1.2 (key.1.2 + key.1.1 * num_reactant0_atoms))
    (List.replicate num_reactants [])

/-- Step 1b of `create_rxn_networks_graph` (lines 88-96): for each item
`(r_tuple, p_tuple)` of the atom map set
`products[prod_ind][p_atom_i]` to the already-computed global index of the
corresponding reactant atom. -/
def transform_products (num_products : ℕ) (reactants_map : List AtomDict)
    (atom_map : List ((ℕ × ℕ) × (ℕ × ℕ))) : Except GraphErr (List AtomDict) :=
  atom_map.foldlM
    (fun ds kv =>
      if kv.1 = kv.2 then do
        let rd ← dict_at reactants_map kv.2.1
        let v ← dict_get rd kv.2.2
        set_map_at ds kv.2.1 kv.2.2 v
      else do
        let rd ← dict_at reactants_map kv.1.1
        let v ← dict_get rd kv.1.2
        set_map_at ds kv.2.1 kv.2.2 v)
    (List.replicate num_products [])

/-- The inner edge loop of `find_total_bonds` (lines 138-139): for every
edge `(i, j)` of the molecule's bond graph add
`tuple(sorted([d[i], d[j]]))` to the bond set. -/
def add_mol_bonds (mol : Mol) (d : AtomDict) (bonds : Finset (ℕ × ℕ)) :
    Except GraphErr (Finset (ℕ × ℕ)) :=
  mol.graph.foldlM
    (fun s e => do
      let a ← dict_get d e.1
      let b ← dict_get d e.2
      Except.ok (insert (min a b, max a b) s))
    bonds

/-- Function `find_total_bonds` (lines 114-140): walk the two slots of one side of
the reaction; at slot `k` break out when `len(temp_species) <= k`, otherwise
record the molecule's entry id and add its bonds mapped through the slot's
atom dict.  Returns the bond set and the entry-id list. -/
def find_total_bonds (mol_entries : List Mol) (species_idxs : ℤ × ℤ)
    (temp_species : List AtomDict) :
    Except GraphErr (Finset (ℕ × ℕ) × List ℕ) :=
  let mol0 := mol_entry_at mol_entries species_idxs.1
  if temp_species.length ≤ 0 then Except.ok (∅, [])
  else
    match add_mol_bonds mol0 (temp_species.getD 0 []) ∅ with
    | Except.error e => Except.error e
    | Except.ok bonds0 =>
      let mol1 := mol_entry_at mol_entries species_idxs.2
      if temp_species.length ≤ 1 then Except.ok (bonds0, [mol0.entry_id])
      else
        match add_mol_bonds mol1 (temp_species.getD 1 []) bonds0 with
        | Except.error e => Except.error e
        | Except.ok bonds1 =>
          Except.ok (bonds1, [mol0.entry_id, mol1.entry_id])

/-- The prefix of `create_rxn_networks_graph`
(`HiPRGen/rxn_networks_graph.py` lines 71-158) up to and including the redox
assertion: transform the atom map (step 1), check the conservation asserts
(lines 102-104), compute the reactant and product global-bond sets (step 2),
and, when `rxn['is_redox']` holds, assert that the two bond sets have equal
cardinality (lines 157-158).  Returns the two bond sets when the computation
proceeds past line 158. -/
def create_rxn_networks_graph_check (mol_entries : List Mol)
    (rxn : Reaction) : Except GraphErr (Finset (ℕ × ℕ) × Finset (ℕ × ℕ)) :=
  match rxn.atom_map with
  | none => Except.error GraphErr.keyError
  | some am =>
    match transform_reactants rxn.number_of_reactants
        (mol_entry_at mol_entries rxn.reactants.1).num_atoms am with
    | Except.error e => Except.error e
    | Except.ok reactants_map =>
      match transform_products rxn.number_of_products reactants_map am with
      | Except.error e => Except.error e
      | Except.ok products_map =>
        if (reactants_map.map List.length).sum ≠
            (products_map.map List.length).sum then
          Except.error GraphErr.assertionError
        else if rxn.number_of_reactants ≠ reactants_map.length then
          Except.error GraphErr.assertionError
        else if rxn.number_of_products ≠ products_map.length then
          Except.error GraphErr.assertionError
        else
          match find_total_bonds mol_entries rxn.reactants reactants_map with
          | Except.error e => Except.error e
          | Except.ok rtb =>
            match find_total_bonds mol_entries rxn.products products_map with
            | Except.error e => Except.error e
            | Except.ok ptb =>
              match rxn.is_redox with
              | none => Except.error GraphErr.keyError
              | some is_redox =>
                if is_redox then
                  if rtb.1.card = ptb.1.card then Except.ok (rtb.1, ptb.1)
                  else Except.error GraphErr.assertionError
                else Except.ok (rtb.1, ptb.1)

/-- C9: For every kept reaction with `is_redox` set, the downstream graph
builder `create_rxn_networks_graph` asserts that the set of global bonds
derived from the reactants and the set of global bonds derived from the
products have equal cardinality: when the cardinalities are equal the
computation proceeds (past the assertion, returning the two sets), and when
they differ it aborts with an assertion failure. -/
theorem C9_redox_bond_count_assert (mol_entries : List Mol) (rxn : Reaction)
    (am : List ((ℕ × ℕ) × (ℕ × ℕ))) (rmaps pmaps : List AtomDict)
    (R P : Finset (ℕ × ℕ)) (rids pids : List ℕ)
    (ham : rxn.atom_map = some am)
    (hredox : rxn.is_redox = some true)
    (hrm : transform_reactants rxn.number_of_reactants
      (mol_entry_at mol_entries rxn.reactants.1).num_atoms am =
      Except.ok rmaps)
    (hpm : transform_products rxn.number_of_products rmaps am =
      Except.ok pmaps)
    (hsum : (rmaps.map List.length).sum = (pmaps.map List.length).sum)
    (hnr : rxn.number_of_reactants = rmaps.length)
    (hnp : rxn.number_of_products = pmaps.length)
    (hR : find_total_bonds mol_entries rxn.reactants rmaps =
      Except.ok (R, rids))
    (hP : find_total_bonds mol_entries rxn.products pmaps =
      Except.ok (P, pids)) :
    create_rxn_networks_graph_check mol_entries rxn =
      (if R.card = P.card then Except.ok (R, P)
       else Except.error GraphErr.assertionError) ∧
    (R.card = P.card →
      create_rxn_networks_graph_check mol_entries rxn = Except.ok (R, P)) ∧
    (R.card ≠ P.card →
      create_rxn_networks_graph_check mol_entries rxn =
        Except.error GraphErr.assertionError) := by
  have hmain : create_rxn_networks_graph_check mol_entries rxn =
      (if R.card = P.card then Except.ok (R, P)
       else Except.error GraphErr.assertionError) := by
    unfold create_rxn_networks_graph_check
    rw [ham]
    dsimp only
    rw [hrm]
    dsimp only
    rw [hpm]
    dsimp only
    rw [if_neg (by omega), if_neg (by omega), if_neg (by omega)]
    rw [hR]
    dsimp only
    rw [hP]
    dsimp only
    rw [hredox]
    dsimp only
    rw [if_pos rfl]
  refine ⟨hmain, ?_, ?_⟩
  · intro hc
    rw [hmain, if_pos hc]
  · intro hc
    rw [hmain, if_neg hc]

/-- A one-molecule store for the redox-assert witness: two atoms joined by
one bond, entry id 7. -/
def sample_redox_mols : List Mol := [Mol.mk 0 2 7 [(0, 1)]]

/-- A kept redox reaction `A -> A` with the identity atom map. -/
def sample_redox_rxn : Reaction :=
  Reaction.mk (0, -1) (0, -1) 1 1 none none (some true)
    (some [((0, 0), (0, 0)), ((0, 1), (0, 1))])

theorem C9_redox_bond_count_assert_witness :
    sample_redox_rxn.is_redox = some true ∧
    create_rxn_networks_graph_check sample_redox_mols sample_redox_rxn =
      Except.ok ({(0, 1)}, {(0, 1)}) :=
  ⟨rfl,
   (C9_redox_bond_count_assert sample_redox_mols sample_redox_rxn
     [((0, 0), (0, 0)), ((0, 1), (0, 1))]
     [[(0, 0), (1, 1)]] [[(0, 0), (1, 1)]]
     {(0, 1)} {(0, 1)} [7] [7]
     rfl rfl rfl rfl rfl rfl rfl rfl rfl).2.1 rfl⟩

theorem C6_enumerate_bucket_correct_witness :
    (enumerate_bucket [((0 : ℤ), -1), (1, -1)]).length = 1 ∧
    enumerate_bucket [((5 : ℤ), 5)] = [] :=
  ⟨((C6_enumerate_bucket_correct [((0 : ℤ), -1), (1, -1)]).1).trans rfl,
   (C6_enumerate_bucket_correct [((5 : ℤ), 5)]).2.2.2.2 ((5 : ℤ), 5)⟩
